import Mathlib

/-!
Verification of the `my_bookish_companion` agent (src/agent/agent.py).

The Python module defines two pure-ish tools (`mark_task_complete`,
`get_book_details`) and a deterministic orchestrator
(`BookishOrchestrator._run_async_impl`) consisting of phase recovery from
event history plus a bounded orchestration loop over three LLM workers.

Shallow embedding conventions:
* The ADK session state (a Python dict) is a `Dict`: an association list
  from `String` keys to `PyVal` values, with first-match lookup and
  erase-then-cons update (matching dict assignment semantics).
* Event history is a `List String`: the `str(event.content)` rendering of
  each event, exactly what the recovery code inspects.
* An LLM worker turn is opaque; its only observable effect on session
  state is a sequence of dict writes (every mutation the ADK runtime or a
  tool performs is a dict assignment), so a worker behavior is a
  `WorkerStep := List (String × PyVal)` applied in order.
* The Google Books HTTP endpoint is an oracle `fetch : String → Nat →
  FetchResult` mapping (query, attempt index) to either an exception or a
  parsed response; `time.sleep` is recorded as data in a sleep trace.
-/

/-- A Python value stored in the session-state dict: the code only ever
stores strings (`current_phase`) and booleans (completion flags). -/
inductive PyVal where
  | vStr : String → PyVal
  | vBool : Bool → PyVal
deriving DecidableEq, Repr

/-- The session state: a string-keyed dict, first match wins on lookup. -/
abbrev Dict := List (String × PyVal)

/-- `state.get(k)` / `k in state`: first binding of `k`, if any. -/
def Dict.get? (d : Dict) (k : String) : Option PyVal :=
  (d.find? (fun p => p.1 == k)).map (fun p => p.2)

/-- `state.get(k, dflt)`. -/
def Dict.getD (d : Dict) (k : String) (dflt : PyVal) : PyVal :=
  (d.get? k).getD dflt

/-- `state[k] = v`: remove any existing binding of `k`, bind `k ↦ v`. -/
def Dict.set (d : Dict) (k : String) (v : PyVal) : Dict :=
  (k, v) :: d.eraseP (fun p => p.1 == k)

/-- `k in state`. -/
def Dict.hasKey (d : Dict) (k : String) : Bool :=
  (d.get? k).isSome

theorem Dict.get?_set_self (d : Dict) (k : String) (v : PyVal) :
    (d.set k v).get? k = some v := by
  simp [Dict.set, Dict.get?, List.find?]

theorem List.find?_eraseP_of_ne {l : List (String × PyVal)} {k k' : String}
    (h : k ≠ k') :
    (l.eraseP (fun p => p.1 == k)).find? (fun p => p.1 == k') =
      l.find? (fun p => p.1 == k') := by
  induction l with
  | nil => rfl
  | cons a l ih =>
    by_cases ha : a.1 = k
    · have h1 : (a.1 == k) = true := by simp [ha]
      have h2 : (a.1 == k') = false := by simp [ha]; exact h
      simp [List.eraseP_cons, h1, List.find?_cons, h2]
    · have h1 : (a.1 == k) = false := by simp [ha]
      by_cases hb : a.1 = k'
      · have h2 : (a.1 == k') = true := by simp [hb]
        simp [List.eraseP_cons, h1, List.find?_cons, h2]
      · have h2 : (a.1 == k') = false := by simp [hb]
        simp [List.eraseP_cons, h1, List.find?_cons, h2, ih]

theorem Dict.get?_set_ne (d : Dict) {k k' : String} (v : PyVal)
    (h : k ≠ k') : (d.set k v).get? k' = d.get? k' := by
  have hk : (k == k') = false := by simp [h]
  simp [Dict.set, Dict.get?, List.find?, hk, List.find?_eraseP_of_ne h]

theorem Dict.hasKey_set (d : Dict) (k k' : String) (v : PyVal)
    (h : d.hasKey k' = true) : (d.set k v).hasKey k' = true := by
  by_cases hk : k = k'
  · subst hk; simp [Dict.hasKey, Dict.get?_set_self]
  · simpa [Dict.hasKey, Dict.get?_set_ne d v hk] using h

/-- No completion-flag key ever collides with the phase key: for every
task name `t`, `t ++ "_completed" ≠ "current_phase"`. -/
theorem flag_key_ne_phase_key (t : String) :
    t ++ "_completed" ≠ "current_phase" := by
  intro h
  have hd : t.data ++ "_completed".data = "current_phase".data := by
    have := congrArg String.data h
    simpa [String.data_append] using this
  have hsplit : "current_phase".data = "cur".data ++ "rent_phase".data := by
    decide
  rw [hsplit] at hd
  have hlen : ("_completed".data).length = ("rent_phase".data).length := by
    decide
  have := (List.append_inj' hd hlen).2
  exact absurd this (by decide)

/-! ## Completion Signal: `mark_task_complete` (agent.py lines 157–195) -/

/-- Embedding of `mark_task_complete`: records the completion flag, maps
the task name to the next phase (default: the phase read from state with
default `"discovery"`), writes the phase back, and returns the
confirmation string. Returns (new state, returned message). The `summary`
argument is only logged by the source and has no effect. -/
def markTaskComplete (state : Dict) (task_name : String) : Dict × String :=
  let state1 := state.set (task_name ++ "_completed") (PyVal.vBool true)
  let current_phase := state1.getD "current_phase" (PyVal.vStr "discovery")
  let next_phase :=
    if task_name = "book_discovery" then PyVal.vStr "scheduling"
    else if task_name = "schedule_creation" then PyVal.vStr "engagement"
    else if task_name = "engagement_generation" then PyVal.vStr "complete"
    else current_phase
  let transition_msg :=
    if task_name = "book_discovery" then "Advancing to Scheduling."
    else if task_name = "schedule_creation" then "Advancing to Engagement."
    else if task_name = "engagement_generation" then "Workflow Complete."
    else "Staying in current phase."
  let state2 := state1.set "current_phase" next_phase
  (state2, "Task '" ++ task_name ++ "' marked as complete. " ++ transition_msg)

/-- Spec-side mapping (refinement reference, follows the spec's words):
`book_discovery → scheduling`, `schedule_creation → engagement`,
`engagement_generation → complete`, any other task name → unchanged
phase. -/
def specPhaseMap (task_name : String) (current : PyVal) : PyVal :=
  if task_name = "book_discovery" then PyVal.vStr "scheduling"
  else if task_name = "schedule_creation" then PyVal.vStr "engagement"
  else if task_name = "engagement_generation" then PyVal.vStr "complete"
  else current

/-- Spec-side transition message for each task name. -/
def specTransitionMsg (task_name : String) : String :=
  if task_name = "book_discovery" then "Advancing to Scheduling."
  else if task_name = "schedule_creation" then "Advancing to Engagement."
  else if task_name = "engagement_generation" then "Workflow Complete."
  else "Staying in current phase."

/-! ## Phase Recovery and Orchestration Loop
(`BookishOrchestrator._run_async_impl`, agent.py lines 383–467) -/

/-- Decidable substring test: `needle in hay` (Python's `in` on str),
computed on the character lists so that it reduces in the kernel. -/
def strContains (hay needle : String) : Bool :=
  (List.range (hay.data.length + 1)).any
    (fun i => needle.data.isPrefixOf (hay.data.drop i))

/-- The completion marker rendered into event content by
`mark_task_complete`'s return value and scanned for by state recovery. -/
def completionMarker (task_name : String) : String :=
  "Task '" ++ task_name ++ "' marked as complete"

/-- Whether any event's textual content contains the marker. -/
def historyHas (events : List String) (task_name : String) : Bool :=
  events.any (fun e => strContains e (completionMarker task_name))

/-- STATE RECOVERY (agent.py lines 390–420): if `current_phase` is absent,
scan event history for the three completion markers and restore the phase
by most-advanced-wins priority; otherwise leave the state untouched. -/
def recoverPhase (state : Dict) (events : List String) : Dict :=
  if state.hasKey "current_phase" then state
  else
    let discovery_done := historyHas events "book_discovery"
    let scheduling_done := historyHas events "schedule_creation"
    let engagement_done := historyHas events "engagement_generation"
    let phase :=
      if engagement_done then "complete"
      else if scheduling_done then "engagement"
      else if discovery_done then "scheduling"
      else "discovery"
    state.set "current_phase" (PyVal.vStr phase)

/-- The three specialized workers the orchestrator routes to. -/
inductive Worker where
  | discovery : Worker
  | scheduling : Worker
  | engagement : Worker
deriving DecidableEq, Repr

/-- Routing (the `if/elif` chain at lines 436–441): which worker serves a
phase value; `none` for `"complete"` and for every unrecognized value. -/
def workerFor (p : PyVal) : Option Worker :=
  if p = PyVal.vStr "discovery" then some Worker.discovery
  else if p = PyVal.vStr "scheduling" then some Worker.scheduling
  else if p = PyVal.vStr "engagement" then some Worker.engagement
  else none

/-- One worker turn's observable effect on session state: a finite
sequence of dict writes (every state mutation by a worker or its tools is
a dict assignment), applied left to right. -/
abbrev WorkerStep := List (String × PyVal)

def applyWrites (d : Dict) : WorkerStep → Dict
  | [] => d
  | (k, v) :: ws => applyWrites (d.set k v) ws

theorem hasKey_applyWrites (ws : WorkerStep) (d : Dict) (k : String)
    (h : d.hasKey k = true) : (applyWrites d ws).hasKey k = true := by
  induction ws generalizing d with
  | nil => exact h
  | cons a ws ih => exact ih (d.set a.1 a.2) (Dict.hasKey_set d a.1 k a.2 h)

/-- Outcome of one orchestration-loop run: final session state, the
workers invoked in order, and whether the bare `state["current_phase"]`
lookup raised a `KeyError` (impossible after recovery). -/
structure LoopRun where
  state : Dict
  invoked : List Worker
  keyError : Bool
deriving DecidableEq, Repr

/-- ORCHESTRATION LOOP (agent.py lines 426–467), fuel = remaining
iterations of `while loop_count < max_loops`. Each iteration reads the
phase, stops on `"complete"`, resets to `"discovery"` and re-iterates on
an unrecognized value, and otherwise runs the routed worker (consuming
the next behavior) and continues iff the phase changed. -/
def orchLoop (behaviors : List WorkerStep) : Nat → Dict → LoopRun
  | 0, state => ⟨state, [], false⟩
  | fuel + 1, state =>
    match state.get? "current_phase" with
    | none => ⟨state, [], true⟩
    | some current_phase =>
      if current_phase = PyVal.vStr "complete" then ⟨state, [], false⟩
      else
        match workerFor current_phase with
        | none =>
          orchLoop behaviors fuel (state.set "current_phase" (PyVal.vStr "discovery"))
        | some w =>
          let state2 := applyWrites state (behaviors.headD [])
          match state2.get? "current_phase" with
          | none => ⟨state2, [w], true⟩
          | some phase_after =>
            if phase_after ≠ current_phase then
              let r := orchLoop behaviors.tail fuel state2
              ⟨r.state, w :: r.invoked, r.keyError⟩
            else ⟨state2, [w], false⟩

/-- `_run_async_impl`: state recovery followed by the loop with
`max_loops = 5`. -/
def runAsyncImpl (state : Dict) (events : List String)
    (behaviors : List WorkerStep) : LoopRun :=
  orchLoop behaviors 5 (recoverPhase state events)

/-- Position of a phase string in the fixed progression order
`discovery → scheduling → engagement → complete` (4 = outside it). -/
def phaseRank (p : String) : Nat :=
  if p = "discovery" then 0
  else if p = "scheduling" then 1
  else if p = "engagement" then 2
  else if p = "complete" then 3
  else 4

/-- The task name whose Completion Signal the worker of a phase is
instructed to invoke (the workers' prompt contract). -/
def taskOfPhase (p : String) : Option String :=
  if p = "discovery" then some "book_discovery"
  else if p = "scheduling" then some "schedule_creation"
  else if p = "engagement" then some "engagement_generation"
  else none

/-! ## Metadata lookup: `get_book_details` (agent.py lines 85–155) -/

/-- Python truthiness of an optional string argument (`None` and `""` are
falsy). -/
def truthyStr : Option String → Bool
  | none => false
  | some s => !(s == "")

/-- Python truthiness of an optional integer (`None` and `0` are falsy). -/
def truthyNat : Option Nat → Bool
  | none => false
  | some n => !(n == 0)

/-- The `volumeInfo` dict of one search result item: the three fields the
code reads, each possibly absent (`item_data.get("volumeInfo", {})` with a
missing `volumeInfo` is the all-absent record). -/
structure VolumeInfo where
  vTitle : Option String
  vAuthors : Option (List String)
  pageCount : Option Nat
deriving DecidableEq, Repr

/-- What one `urllib.request.urlopen` round trip yields: an exception
(anything the `except` clause catches), or a parsed JSON response whose
`items` key is absent (`none`) or holds a list of result items. -/
inductive FetchResult where
  | fetchError : FetchResult
  | ok : Option (List VolumeInfo) → FetchResult
deriving DecidableEq, Repr

/-- The formatted found-string (line 140 of the source). -/
def foundMsg (res_title : String) (res_authors : String) (page_count : Nat) : String :=
  "Found Book: " ++ res_title ++ " by " ++ res_authors ++ ". Total Pages: " ++
    toString page_count ++ "."

/-- The fixed failure string (line 155 of the source). -/
def failureMsg : String :=
  "Could not find book details with page counts. Please ask the user for the page count."

/-- The inner result scan (lines 130–140): check the first 3 items for a
truthy `pageCount`; on the first hit return the formatted found-string. -/
def firstPages (items : List VolumeInfo) : Option String :=
  (items.take 3).findSome? (fun item =>
    if truthyNat item.pageCount then
      some (foundMsg ((item.vTitle).getD "Unknown")
        (String.intercalate ", " ((item.vAuthors).getD ["Unknown"]))
        ((item.pageCount).getD 0))
    else none)

/-- The retry loop for one query variant (lines 115–152): `attempt` is the
current 0-based attempt index, the second argument the attempts remaining
(initially `max_retries = 3`). Returns (found-string if any, number of
fetch calls made, sleep durations in order). On an exception the attempt
is retried after `2 ^ attempt` seconds unless it was the last; any
non-exception response ends the retries for this variant (`break`). -/
def runAttempts (fetch : String → Nat → FetchResult) (q : String) :
    Nat → Nat → Option String × Nat × List Nat
  | _, 0 => (none, 0, [])
  | attempt, remaining + 1 =>
    match fetch q attempt with
    | FetchResult.fetchError =>
      if remaining = 0 then (none, 1, [])
      else
        let r := runAttempts fetch q (attempt + 1) remaining
        (r.1, r.2.1 + 1, 2 ^ attempt :: r.2.2)
    | FetchResult.ok none => (none, 1, [])
    | FetchResult.ok (some items) =>
      match firstPages items with
      | some msg => (some msg, 1, [])
      | none => (none, 1, [])

/-- Query-variant construction (lines 98–106): title+author combo, then
title, then author, then isbn — each only when the argument is truthy. -/
def buildQueries (isbn title author : Option String) : List String :=
  (if truthyStr title && truthyStr author then
    ["intitle:\"" ++ (title.getD "") ++ "\" inauthor:\"" ++ (author.getD "") ++ "\""]
  else []) ++
  (if truthyStr title then ["intitle:\"" ++ (title.getD "") ++ "\""] else []) ++
  (if truthyStr author then ["inauthor:\"" ++ (author.getD "") ++ "\""] else []) ++
  (if truthyStr isbn then ["isbn:" ++ (isbn.getD "")] else [])

/-- Outcome of one `get_book_details` call: returned string, per-variant
fetch-attempt counts in order, and all sleep durations in order. -/
structure LookupRun where
  result : String
  attempts : List (String × Nat)
  sleeps : List Nat
deriving DecidableEq, Repr

/-- The outer loop over query variants (line 114): run the retry loop per
variant, returning the first found-string, or the fixed failure string
when every variant is exhausted. -/
def runQueries (fetch : String → Nat → FetchResult) : List String → LookupRun
  | [] => ⟨failureMsg, [], []⟩
  | q :: qs =>
    let r := runAttempts fetch q 0 3
    match r.1 with
    | some msg => ⟨msg, [(q, r.2.1)], r.2.2⟩
    | none =>
      let rest := runQueries fetch qs
      ⟨rest.result, (q, r.2.1) :: rest.attempts, r.2.2 ++ rest.sleeps⟩

/-- Embedding of `get_book_details` over a fetch oracle. -/
def getBookDetails (fetch : String → Nat → FetchResult)
    (isbn title author : Option String) : LookupRun :=
  runQueries fetch (buildQueries isbn title author)

/-! ## Supporting lemmas about the Completion Signal -/

/-- The phase written (and hence read back) by `mark_task_complete` is
exactly the fixed task→phase mapping applied to the session's current
phase (read with default `"discovery"`). -/
theorem markTaskComplete_phase (s : Dict) (t : String) :
    ((markTaskComplete s t).1).get? "current_phase" =
      some (specPhaseMap t (s.getD "current_phase" (PyVal.vStr "discovery"))) := by
  have hne := flag_key_ne_phase_key t
  simp only [markTaskComplete, specPhaseMap, Dict.get?_set_self, Dict.getD,
    Dict.get?_set_ne s (PyVal.vBool true) hne]

/-- The string returned by `mark_task_complete`. -/
theorem markTaskComplete_msg (s : Dict) (t : String) :
    (markTaskComplete s t).2 =
      "Task '" ++ t ++ "' marked as complete. " ++ specTransitionMsg t := rfl

/-- For a task name outside the three fixed values the mapping is the
identity. -/
theorem specPhaseMap_unknown {t : String} (h1 : t ≠ "book_discovery")
    (h2 : t ≠ "schedule_creation") (h3 : t ≠ "engagement_generation")
    (v : PyVal) : specPhaseMap t v = v := by
  simp [specPhaseMap, h1, h2, h3]

/-- C1. For every task name and every session state, `mark_task_complete`
writes the phase given by the fixed mapping `book_discovery → scheduling`,
`schedule_creation → engagement`, `engagement_generation → complete`
(any other task name keeps the current phase, read with default
`discovery`) into `current_phase`, returns the confirmation string
describing the transition, and reading `current_phase` back immediately
afterwards yields exactly the mapped value. -/
theorem C1_completion_signal_mapping_roundtrip (s : Dict) (t : String) :
    ((markTaskComplete s t).1).get? "current_phase" =
      some (specPhaseMap t (s.getD "current_phase" (PyVal.vStr "discovery"))) ∧
    (markTaskComplete s t).2 =
      "Task '" ++ t ++ "' marked as complete. " ++ specTransitionMsg t :=
  ⟨markTaskComplete_phase s t, markTaskComplete_msg s t⟩

/-- C2 counterexample: on a session state where `current_phase` is absent,
an unrecognized task name does NOT leave `current_phase` unchanged — the
key is materialized with value `"discovery"` (line 193 writes the phase
unconditionally). -/
theorem C2_counterexample_absent_phase_written :
    Dict.get? (markTaskComplete ([] : Dict) "mystery_task").1 "current_phase" ≠
      Dict.get? ([] : Dict) "current_phase" := by decide

/-- C2 (amended). For every session state and every task name outside the
three fixed values, `mark_task_complete` raises no error and leaves the
effective phase (read with default `discovery`) unchanged: a present
`current_phase` keeps its exact value, an absent one is materialized as
`"discovery"`, and the returned message says the workflow stays in the
current phase. -/
theorem C2_unknown_task_amended (s : Dict) (t : String)
    (h1 : t ≠ "book_discovery") (h2 : t ≠ "schedule_creation")
    (h3 : t ≠ "engagement_generation") :
    (markTaskComplete s t).1.getD "current_phase" (PyVal.vStr "discovery") =
      s.getD "current_phase" (PyVal.vStr "discovery") ∧
    (∀ v, s.get? "current_phase" = some v →
      (markTaskComplete s t).1.get? "current_phase" = some v) ∧
    (s.get? "current_phase" = none →
      (markTaskComplete s t).1.get? "current_phase" = some (PyVal.vStr "discovery")) ∧
    (markTaskComplete s t).2 =
      "Task '" ++ t ++ "' marked as complete. " ++ "Staying in current phase." := by
  have hp := markTaskComplete_phase s t
  rw [specPhaseMap_unknown h1 h2 h3] at hp
  refine ⟨?_, ?_, ?_, ?_⟩
  · rw [Dict.getD, hp, Option.getD_some]
  · intro v hv
    rw [hp, Dict.getD, hv, Option.getD_some]
  · intro hv
    rw [hp, Dict.getD, hv, Option.getD_none]
  · rw [markTaskComplete_msg s t, specTransitionMsg, if_neg h1, if_neg h2, if_neg h3]

/-- C2 witness: the amended statement at a concrete state and task. -/
theorem C2_unknown_task_amended_witness :
    (markTaskComplete [("current_phase", PyVal.vStr "engagement")] "mystery_task").1.getD
        "current_phase" (PyVal.vStr "discovery") = PyVal.vStr "engagement" ∧
    (markTaskComplete [("current_phase", PyVal.vStr "engagement")] "mystery_task").2 =
      "Task 'mystery_task' marked as complete. Staying in current phase." := by
  have h := C2_unknown_task_amended [("current_phase", PyVal.vStr "engagement")]
    "mystery_task" (by decide) (by decide) (by decide)
  refine ⟨?_, ?_⟩
  · rw [h.1]; decide
  · rw [h.2.2.2]; rfl

/-- C9. Every invocation of `mark_task_complete` — with any string as the
task name, recognized or not — writes the key `<task_name>_completed`
with value `True` into session state; for an unrecognized task name this
still happens even though the effective phase does not advance. -/
theorem C9_flag_written_for_every_task_name (s : Dict) (t : String) :
    (markTaskComplete s t).1.get? (t ++ "_completed") = some (PyVal.vBool true) ∧
    ((t ≠ "book_discovery" ∧ t ≠ "schedule_creation" ∧ t ≠ "engagement_generation") →
      (markTaskComplete s t).1.getD "current_phase" (PyVal.vStr "discovery") =
        s.getD "current_phase" (PyVal.vStr "discovery")) := by
  constructor
  · have hne : "current_phase" ≠ t ++ "_completed" := (flag_key_ne_phase_key t).symm
    simp only [markTaskComplete]
    rw [Dict.get?_set_ne _ _ hne, Dict.get?_set_self]
  · intro ⟨h1, h2, h3⟩
    have hp := markTaskComplete_phase s t
    rw [specPhaseMap_unknown h1 h2 h3] at hp
    rw [Dict.getD, hp, Option.getD_some]

/-- C9 witness: the flag write and phase stasis at a concrete input. -/
theorem C9_flag_written_witness :
    (markTaskComplete [("current_phase", PyVal.vStr "scheduling")] "weird").1.get?
        "weird_completed" = some (PyVal.vBool true) ∧
    (markTaskComplete [("current_phase", PyVal.vStr "scheduling")] "weird").1.getD
        "current_phase" (PyVal.vStr "discovery") =
      Dict.getD [("current_phase", PyVal.vStr "scheduling")] "current_phase"
        (PyVal.vStr "discovery") :=
  ⟨(C9_flag_written_for_every_task_name [("current_phase", PyVal.vStr "scheduling")]
      "weird").1,
   (C9_flag_written_for_every_task_name [("current_phase", PyVal.vStr "scheduling")]
      "weird").2 ⟨by decide, by decide, by decide⟩⟩

/-! ## Phase Recovery theorems -/

/-- Spec-side recovery policy (follows the spec's words): most-advanced
marker wins, judged by presence alone; empty or marker-free history gives
`discovery`. -/
def recoveredPhase (events : List String) : String :=
  if historyHas events "engagement_generation" then "complete"
  else if historyHas events "schedule_creation" then "engagement"
  else if historyHas events "book_discovery" then "scheduling"
  else "discovery"

/-- Marker presence over a history depends only on which events occur,
not on their order. -/
theorem historyHas_perm {evs evs' : List String} (h : evs.Perm evs')
    (t : String) : historyHas evs t = historyHas evs' t := by
  have hiff : (historyHas evs t = true) ↔ (historyHas evs' t = true) := by
    simp only [historyHas, List.any_eq_true]
    constructor
    · rintro ⟨e, he, hc⟩; exact ⟨e, h.mem_iff.mp he, hc⟩
    · rintro ⟨e, he, hc⟩; exact ⟨e, h.mem_iff.mpr he, hc⟩
  cases h1 : historyHas evs t with
  | false =>
    cases h2 : historyHas evs' t with
    | false => rfl
    | true => exact absurd (hiff.mpr h2) (by simp [h1])
  | true => exact (hiff.mp h1).symm

/-- C3. Phase Recovery is a no-op when `current_phase` is already set;
otherwise it writes the phase given by most-advanced-wins priority on
marker presence alone: engagement marker → `complete`, else scheduling
marker → `engagement`, else discovery marker → `scheduling`, else
(including the empty history) → `discovery`; and the resolved phase is
independent of the order of the events. -/
theorem C3_phase_recovery_priority (s : Dict) (events events' : List String) :
    (Dict.hasKey s "current_phase" = true → recoverPhase s events = s) ∧
    (Dict.hasKey s "current_phase" = false →
      Dict.get? (recoverPhase s events) "current_phase" =
        some (PyVal.vStr (recoveredPhase events))) ∧
    (events.Perm events' → recoveredPhase events = recoveredPhase events') ∧
    recoveredPhase [] = "discovery" := by
  refine ⟨?_, ?_, ?_, rfl⟩
  · intro h; simp [recoverPhase, h]
  · intro h; simp [recoverPhase, h, recoveredPhase, Dict.get?_set_self]
  · intro hp
    unfold recoveredPhase
    rw [historyHas_perm hp "engagement_generation",
      historyHas_perm hp "schedule_creation", historyHas_perm hp "book_discovery"]

/-- C3 witness: no-op on a set phase; recovery of `scheduling` from a
discovery-completion event; order-independence on a two-event history. -/
theorem C3_phase_recovery_priority_witness :
    recoverPhase [("current_phase", PyVal.vStr "engagement")] ["noise"] =
      [("current_phase", PyVal.vStr "engagement")] ∧
    Dict.get? (recoverPhase []
        ["Task 'book_discovery' marked as complete. Advancing to Scheduling."])
      "current_phase" = some (PyVal.vStr "scheduling") ∧
    recoveredPhase ["a", "b"] = recoveredPhase ["b", "a"] := by
  have h1 := (C3_phase_recovery_priority [("current_phase", PyVal.vStr "engagement")]
    ["noise"] []).1 (by decide)
  have h2 := (C3_phase_recovery_priority ([] : Dict)
    ["Task 'book_discovery' marked as complete. Advancing to Scheduling."] []).2.1
    (by decide)
  have h3 := (C3_phase_recovery_priority ([] : Dict) ["a", "b"] ["b", "a"]).2.2.1
    (List.Perm.swap "b" "a" [])
  refine ⟨h1, ?_, h3⟩
  rw [h2]
  decide

/-! ## Orchestration Loop theorems -/

/-- Each loop iteration invokes at most one worker, so a run with `fuel`
iterations left invokes at most `fuel` workers. -/
theorem orchLoop_invoked_le (fuel : Nat) : ∀ (b : List WorkerStep) (s : Dict),
    (orchLoop b fuel s).invoked.length ≤ fuel := by
  induction fuel with
  | zero => intro b s; simp [orchLoop]
  | succ n ih =>
    intro b s
    simp only [orchLoop]
    split
    · simp
    · split
      · simp
      · split
        · exact (ih b _).trans (Nat.le_succ n)
        · split
          · simp
          · split
            · simpa using Nat.succ_le_succ (ih b.tail _)
            · simp

/-- If `current_phase` is present on entry, no iteration's bare dict
lookup can raise: the loop never key-errors. -/
theorem orchLoop_keyError_false (fuel : Nat) : ∀ (b : List WorkerStep) (s : Dict),
    s.hasKey "current_phase" = true → (orchLoop b fuel s).keyError = false := by
  induction fuel with
  | zero => intro b s _; rfl
  | succ n ih =>
    intro b s hs
    simp only [orchLoop]
    split
    case _ hg => rw [Dict.hasKey, hg] at hs; simp at hs
    case _ p hg =>
      split
      · rfl
      · split
        · exact ih b _ (Dict.hasKey_set s _ _ _ hs)
        · split
          case _ hg2 =>
            have h2 := hasKey_applyWrites (b.headD []) s "current_phase" hs
            rw [Dict.hasKey, hg2] at h2; simp at h2
          case _ pa hg2 =>
            split
            · simpa using ih b.tail _ (hasKey_applyWrites (b.headD []) s "current_phase" hs)
            · rfl

/-- After recovery, `current_phase` is always present. -/
theorem recoverPhase_hasKey (s : Dict) (events : List String) :
    (recoverPhase s events).hasKey "current_phase" = true := by
  unfold recoverPhase
  split
  · assumption
  · simp [Dict.hasKey, Dict.get?_set_self]

/-- C4. For every session state, event history and sequence of worker
behaviors, one invocation of `_run_async_impl` invokes at most 5 worker
turns, and the run ends without raising (in particular, exhausting the
5-iteration bound stops silently). -/
theorem C4_loop_bound_and_silent_stop (s : Dict) (events : List String)
    (b : List WorkerStep) :
    (runAsyncImpl s events b).invoked.length ≤ 5 ∧
    (runAsyncImpl s events b).keyError = false :=
  ⟨orchLoop_invoked_le 5 b _,
   orchLoop_keyError_false 5 b _ (recoverPhase_hasKey s events)⟩

/-- C7. On a phase value outside the four-element enumeration the loop
iteration invokes no worker for that value: it resets `current_phase` to
`"discovery"` and re-iterates immediately (consuming only one unit of the
iteration bound), and the run never surfaces an error. -/
theorem C7_unknown_phase_reset (n : Nat) (b : List WorkerStep) (s : Dict)
    (v : PyVal) (hs : Dict.get? s "current_phase" = some v)
    (h1 : v ≠ PyVal.vStr "discovery") (h2 : v ≠ PyVal.vStr "scheduling")
    (h3 : v ≠ PyVal.vStr "engagement") (h4 : v ≠ PyVal.vStr "complete") :
    orchLoop b (n + 1) s =
      orchLoop b n (Dict.set s "current_phase" (PyVal.vStr "discovery")) ∧
    (orchLoop b (n + 1) s).keyError = false := by
  have hw : workerFor v = none := by simp [workerFor, h1, h2, h3]
  have heq : orchLoop b (n + 1) s =
      orchLoop b n (Dict.set s "current_phase" (PyVal.vStr "discovery")) := by
    simp only [orchLoop]
    rw [hs]
    simp [h4, hw]
  refine ⟨heq, ?_⟩
  rw [heq]
  exact orchLoop_keyError_false n b _
    (Dict.hasKey_set s _ _ _ (by rw [Dict.hasKey, hs]; rfl))

/-- C7 witness: a concrete state holding the unrecognized phase value
`"limbo"`. -/
theorem C7_unknown_phase_reset_witness :
    orchLoop [] 1 [("current_phase", PyVal.vStr "limbo")] =
      orchLoop [] 0 (Dict.set [("current_phase", PyVal.vStr "limbo")]
        "current_phase" (PyVal.vStr "discovery")) ∧
    (orchLoop [] 1 [("current_phase", PyVal.vStr "limbo")]).keyError = false :=
  C7_unknown_phase_reset 0 [] [("current_phase", PyVal.vStr "limbo")]
    (PyVal.vStr "limbo") (by decide) (by decide) (by decide) (by decide) (by decide)

/-- Recovery is the identity when the phase key is already present. -/
theorem recoverPhase_of_hasKey (s : Dict) (events : List String)
    (h : s.hasKey "current_phase" = true) : recoverPhase s events = s := by
  simp [recoverPhase, h]

/-- A routable phase is never `"complete"`. -/
theorem workerFor_ne_complete {p : PyVal} {w : Worker}
    (hw : workerFor p = some w) : p ≠ PyVal.vStr "complete" := by
  intro h; subst h; simp [workerFor] at hw

/-- One loop iteration on a routable phase whose worker changes the
phase: the worker is invoked and the loop re-iterates on the new state
with the next behavior. -/
theorem orchLoop_step_changed (n : Nat) (b : List WorkerStep) (s : Dict)
    (p pa : PyVal) (w : Worker) (hs : Dict.get? s "current_phase" = some p)
    (hw : workerFor p = some w)
    (hg2 : Dict.get? (applyWrites s (b.headD [])) "current_phase" = some pa)
    (hne : pa ≠ p) :
    orchLoop b (n + 1) s =
      ⟨(orchLoop b.tail n (applyWrites s (b.headD []))).state,
       w :: (orchLoop b.tail n (applyWrites s (b.headD []))).invoked,
       (orchLoop b.tail n (applyWrites s (b.headD []))).keyError⟩ := by
  have hpc := workerFor_ne_complete hw
  simp only [orchLoop]
  rw [hs]
  simp only [if_neg hpc]
  rw [hw]
  simp only []
  rw [hg2]
  simp [hne]

/-- On a routable phase, the routed worker is the first one invoked. -/
theorem orchLoop_invoked_cons (n : Nat) (b : List WorkerStep) (s : Dict)
    (p : PyVal) (w : Worker) (hs : Dict.get? s "current_phase" = some p)
    (hw : workerFor p = some w) :
    ∃ rest, (orchLoop b (n + 1) s).invoked = w :: rest := by
  have hpc := workerFor_ne_complete hw
  simp only [orchLoop]
  rw [hs]
  simp only [if_neg hpc]
  rw [hw]
  simp only []
  cases hg2 : Dict.get? (applyWrites s (b.headD [])) "current_phase" with
  | none => exact ⟨[], rfl⟩
  | some pa =>
    by_cases hne : pa ≠ p
    · simp only [if_pos hne]
      exact ⟨(orchLoop b.tail n (applyWrites s (b.headD []))).invoked, rfl⟩
    · simp only [if_neg hne]
      exact ⟨[], rfl⟩

/-- C5 counterexample: when the engagement worker's invocation changes the
phase from `engagement` to `complete`, the phase DID change during that
invocation yet no further worker is invoked — refuting "invokes another
worker if and only if the phase changed". -/
theorem C5_counterexample_change_to_complete :
    (runAsyncImpl [("current_phase", PyVal.vStr "engagement")] []
        [[("current_phase", PyVal.vStr "complete")]]).invoked =
      [Worker.engagement] ∧
    Dict.get? (applyWrites [("current_phase", PyVal.vStr "engagement")]
        [("current_phase", PyVal.vStr "complete")]) "current_phase" =
      some (PyVal.vStr "complete") := by decide

/-- C5 (amended). Reading `complete` at the top of an iteration stops the
loop with no worker invoked; an unchanged phase after a worker invocation
terminates the loop with no further worker; a changed phase makes the
loop re-iterate — in particular a change from `scheduling` to
`engagement` causes the engagement worker to run in the same interaction
— but the re-iteration invokes a further worker only when the new phase
routes to one (not when it is `complete`). -/
theorem C5_loop_chaining_amended :
    (∀ (n : Nat) (b : List WorkerStep) (s : Dict),
      Dict.get? s "current_phase" = some (PyVal.vStr "complete") →
      orchLoop b (n + 1) s = ⟨s, [], false⟩) ∧
    (∀ (n : Nat) (b : List WorkerStep) (s : Dict) (p : PyVal) (w : Worker),
      Dict.get? s "current_phase" = some p →
      workerFor p = some w →
      Dict.get? (applyWrites s (b.headD [])) "current_phase" = some p →
      orchLoop b (n + 1) s = ⟨applyWrites s (b.headD []), [w], false⟩) ∧
    (∀ (b : List WorkerStep) (s : Dict) (events : List String),
      Dict.get? s "current_phase" = some (PyVal.vStr "scheduling") →
      Dict.get? (applyWrites s (b.headD [])) "current_phase" =
        some (PyVal.vStr "engagement") →
      (runAsyncImpl s events b).invoked.take 2 =
        [Worker.scheduling, Worker.engagement]) := by
  refine ⟨?_, ?_, ?_⟩
  · intro n b s hs
    simp only [orchLoop]
    rw [hs]
    simp
  · intro n b s p w hs hw hafter
    have hpc := workerFor_ne_complete hw
    simp only [orchLoop]
    rw [hs]
    simp only [if_neg hpc]
    rw [hw]
    simp only []
    rw [hafter]
    simp
  · intro b s events hs hafter
    have hkey : s.hasKey "current_phase" = true := by rw [Dict.hasKey, hs]; rfl
    unfold runAsyncImpl
    rw [recoverPhase_of_hasKey s events hkey]
    rw [orchLoop_step_changed 4 b s (PyVal.vStr "scheduling")
      (PyVal.vStr "engagement") Worker.scheduling hs (by decide) hafter (by decide)]
    obtain ⟨rest, hrest⟩ := orchLoop_invoked_cons 3 b.tail
      (applyWrites s (b.headD [])) (PyVal.vStr "engagement") Worker.engagement
      hafter (by decide)
    simp only []
    rw [hrest]
    rfl

/-- C5 witness: the three amended clauses at concrete inputs. -/
theorem C5_loop_chaining_amended_witness :
    orchLoop [] 1 [("current_phase", PyVal.vStr "complete")] =
      ⟨[("current_phase", PyVal.vStr "complete")], [], false⟩ ∧
    orchLoop [] 1 [("current_phase", PyVal.vStr "discovery")] =
      ⟨applyWrites [("current_phase", PyVal.vStr "discovery")] [],
       [Worker.discovery], false⟩ ∧
    (runAsyncImpl [("current_phase", PyVal.vStr "scheduling")] []
        [[("current_phase", PyVal.vStr "engagement")]]).invoked.take 2 =
      [Worker.scheduling, Worker.engagement] :=
  ⟨C5_loop_chaining_amended.1 0 [] [("current_phase", PyVal.vStr "complete")]
    (by decide),
   C5_loop_chaining_amended.2.1 0 [] [("current_phase", PyVal.vStr "discovery")]
    (PyVal.vStr "discovery") Worker.discovery (by decide) (by decide) (by decide),
   C5_loop_chaining_amended.2.2 [[("current_phase", PyVal.vStr "engagement")]]
    [("current_phase", PyVal.vStr "scheduling")] [] (by decide) (by decide)⟩

/-- C6 counterexample: the Completion Signal invoked with `book_discovery`
while the session is in phase `engagement` assigns `scheduling`, an
earlier phase than the current one — the phase moves backward. -/
theorem C6_counterexample_backward_assignment :
    Dict.get? (markTaskComplete [("current_phase", PyVal.vStr "engagement")]
        "book_discovery").1 "current_phase" = some (PyVal.vStr "scheduling") ∧
    phaseRank "scheduling" < phaseRank "engagement" := by decide

/-- C6 (amended). When the Completion Signal is invoked with the task
name belonging to the session's current phase (the discipline the worker
prompts mandate), the phase advances exactly one step forward along
`discovery → scheduling → engagement → complete`; invoked with an earlier
phase's task name, the Signal can move the phase backward. -/
theorem C6_forward_one_step_amended (s : Dict) (p t : String)
    (hs : Dict.getD s "current_phase" (PyVal.vStr "discovery") = PyVal.vStr p)
    (ht : taskOfPhase p = some t) :
    ∃ p', Dict.get? (markTaskComplete s t).1 "current_phase" =
        some (PyVal.vStr p') ∧ phaseRank p' = phaseRank p + 1 := by
  by_cases h1 : p = "discovery"
  · subst h1
    have h : t = "book_discovery" := by
      simpa [taskOfPhase] using ht.symm
    subst h
    refine ⟨"scheduling", ?_, by decide⟩
    rw [markTaskComplete_phase]
    rfl
  · by_cases h2 : p = "scheduling"
    · subst h2
      have h : t = "schedule_creation" := by
        simpa [taskOfPhase] using ht.symm
      subst h
      refine ⟨"engagement", ?_, by decide⟩
      rw [markTaskComplete_phase]
      rfl
    · by_cases h3 : p = "engagement"
      · subst h3
        have h : t = "engagement_generation" := by
          simpa [taskOfPhase] using ht.symm
        subst h
        refine ⟨"complete", ?_, by decide⟩
        rw [markTaskComplete_phase]
        rfl
      · simp [taskOfPhase, h1, h2, h3] at ht

/-- C6 witness: one forward step from `discovery`. -/
theorem C6_forward_one_step_amended_witness :
    ∃ p', Dict.get? (markTaskComplete [("current_phase", PyVal.vStr "discovery")]
        "book_discovery").1 "current_phase" = some (PyVal.vStr p') ∧
      phaseRank p' = phaseRank "discovery" + 1 :=
  C6_forward_one_step_amended [("current_phase", PyVal.vStr "discovery")]
    "discovery" "book_discovery" (by decide) (by decide)

/-! ## Metadata lookup theorems -/

/-- Anything the inner result scan returns has the found-string format. -/
theorem firstPages_shape {items : List VolumeInfo} {m : String}
    (h : firstPages items = some m) :
    ∃ rt ra pc, m = foundMsg rt ra pc := by
  unfold firstPages at h
  rw [List.findSome?_eq_some_iff] at h
  obtain ⟨l1, item, l2, _, hit, _⟩ := h
  by_cases hp : truthyNat item.pageCount
  · rw [if_pos hp] at hit
    exact ⟨_, _, _, (Option.some_inj.mp hit).symm⟩
  · rw [if_neg hp] at hit
    cases hit

/-- Anything the retry loop returns has the found-string format. -/
theorem runAttempts_shape (fetch : String → Nat → FetchResult) (q : String) :
    ∀ (r a : Nat) {m : String}, (runAttempts fetch q a r).1 = some m →
      ∃ rt ra pc, m = foundMsg rt ra pc := by
  intro r
  induction r with
  | zero => intro a m h; cases h
  | succ n ih =>
    intro a m h
    simp only [runAttempts] at h
    cases hf : fetch q a with
    | fetchError =>
      rw [hf] at h
      by_cases hn : n = 0
      · rw [if_pos hn] at h; cases h
      · rw [if_neg hn] at h
        exact ih (a + 1) h
    | ok items? =>
      cases items? with
      | none => rw [hf] at h; cases h
      | some items =>
        cases hfp : firstPages items with
        | none => simp [hf, hfp] at h
        | some msg =>
          simp [hf, hfp] at h
          subst h
          exact firstPages_shape hfp

/-- The retry loop makes at most as many fetch calls as it has attempts
remaining. -/
theorem runAttempts_count_le (fetch : String → Nat → FetchResult) (q : String) :
    ∀ (r a : Nat), (runAttempts fetch q a r).2.1 ≤ r := by
  intro r
  induction r with
  | zero => intro a; simp [runAttempts]
  | succ n ih =>
    intro a
    simp only [runAttempts]
    cases hf : fetch q a with
    | fetchError =>
      by_cases hn : n = 0
      · simp [hn]
      · simpa [hn] using Nat.succ_le_succ (ih (a + 1))
    | ok items? =>
      cases items? with
      | none => simp
      | some items =>
        cases hfp : firstPages items with
        | none => simp [hfp]
        | some msg => simp [hfp]

/-- The returned string of the variant loop is the fixed failure string
or a found-string. -/
theorem runQueries_shape (fetch : String → Nat → FetchResult) :
    ∀ (l : List String), (runQueries fetch l).result = failureMsg ∨
      ∃ rt ra pc, (runQueries fetch l).result = foundMsg rt ra pc := by
  intro l
  induction l with
  | nil => left; rfl
  | cons q qs ih =>
    simp only [runQueries]
    cases hr : (runAttempts fetch q 0 3).1 with
    | none => exact ih
    | some msg =>
      right
      obtain ⟨rt, ra, pc, hm⟩ := runAttempts_shape fetch q 3 0 hr
      exact ⟨rt, ra, pc, hm⟩

/-- Every per-variant attempt record names one of the supplied query
variants and counts at most 3 fetch calls. -/
theorem runQueries_attempts_bound (fetch : String → Nat → FetchResult) :
    ∀ (l : List String), ∀ x ∈ (runQueries fetch l).attempts,
      x.2 ≤ 3 ∧ x.1 ∈ l := by
  intro l
  induction l with
  | nil => intro x hx; cases hx
  | cons q qs ih =>
    intro x hx
    simp only [runQueries] at hx
    cases hr : (runAttempts fetch q 0 3).1 with
    | none =>
      rw [hr] at hx
      simp only [List.mem_cons] at hx
      rcases hx with hx | hx
      · subst hx
        exact ⟨runAttempts_count_le fetch q 3 0, List.mem_cons_self q qs⟩
      · obtain ⟨h1, h2⟩ := ih x hx
        exact ⟨h1, List.mem_cons_of_mem q h2⟩
    | some msg =>
      rw [hr] at hx
      simp only [List.mem_singleton] at hx
      subst hx
      exact ⟨runAttempts_count_le fetch q 3 0, List.mem_cons_self q qs⟩

/-- When every fetch attempt raises, one variant's retry loop makes
exactly 3 attempts, sleeping `2^a` then `2^(a+1)` seconds. -/
theorem runAttempts_all_errors (fetch : String → Nat → FetchResult)
    (q : String) (h : ∀ n, fetch q n = FetchResult.fetchError) (a : Nat) :
    runAttempts fetch q a 3 = (none, 3, [2 ^ a, 2 ^ (a + 1)]) := by
  simp [runAttempts, h]

/-- When every fetch attempt raises, the whole lookup exhausts every
variant (3 attempts and the backoff schedule `[1, 2]` per variant) and
yields the fixed failure string. -/
theorem runQueries_all_errors (fetch : String → Nat → FetchResult)
    (h : ∀ q n, fetch q n = FetchResult.fetchError) :
    ∀ (l : List String), runQueries fetch l =
      ⟨failureMsg, l.map (fun q => (q, 3)),
        List.flatten (l.map (fun _ => [1, 2]))⟩ := by
  intro l
  induction l with
  | nil => rfl
  | cons q qs ih =>
    simp only [runQueries]
    rw [runAttempts_all_errors fetch q (h q) 0]
    simp [ih]

/-- C8. For every combination of isbn/title/author inputs and every
behavior of the external text-search source, the metadata lookup never
raises past its own boundary (it is a total function into the two result
shapes): the result is the formatted found-string or the one fixed
failure string; each query variant is attempted at most 3 times; and when
every attempt raises, every variant is exhausted — 3 attempts with
exponential backoff `[1, 2]` per variant — and the fixed failure string
is returned. -/
theorem C8_lookup_never_raises (fetch : String → Nat → FetchResult)
    (isbn title author : Option String) :
    ((getBookDetails fetch isbn title author).result = failureMsg ∨
      ∃ rt ra pc, (getBookDetails fetch isbn title author).result =
        foundMsg rt ra pc) ∧
    (∀ x ∈ (getBookDetails fetch isbn title author).attempts,
      x.2 ≤ 3 ∧ x.1 ∈ buildQueries isbn title author) ∧
    ((∀ q n, fetch q n = FetchResult.fetchError) →
      getBookDetails fetch isbn title author =
        ⟨failureMsg, (buildQueries isbn title author).map (fun q => (q, 3)),
          List.flatten ((buildQueries isbn title author).map (fun _ => [1, 2]))⟩) :=
  ⟨runQueries_shape fetch (buildQueries isbn title author),
   runQueries_attempts_bound fetch (buildQueries isbn title author),
   fun h => runQueries_all_errors fetch h (buildQueries isbn title author)⟩

/-- C8 witness: a title+author lookup whose every attempt raises builds 3
variants, attempts each 3 times with backoff `[1, 2]`, and returns the
fixed failure string; its attempt records all stay within the bound. -/
theorem C8_lookup_never_raises_witness :
    getBookDetails (fun _ _ => FetchResult.fetchError) none (some "Dune")
        (some "Frank Herbert") =
      ⟨failureMsg,
       [("intitle:\"Dune\" inauthor:\"Frank Herbert\"", 3),
        ("intitle:\"Dune\"", 3), ("inauthor:\"Frank Herbert\"", 3)],
       [1, 2, 1, 2, 1, 2]⟩ ∧
    (("intitle:\"Dune\"", 3) : String × Nat).2 ≤ 3 ∧
      "intitle:\"Dune\"" ∈ buildQueries none (some "Dune") (some "Frank Herbert") := by
  have h := C8_lookup_never_raises (fun _ _ => FetchResult.fetchError) none
    (some "Dune") (some "Frank Herbert")
  refine ⟨?_, ?_⟩
  · rw [h.2.2 (fun q n => rfl)]
    rfl
  · refine h.2.1 ("intitle:\"Dune\"", 3) ?_
    rw [h.2.2 (fun q n => rfl)]
    decide

/-- C10. Called with none of isbn, title and author, the lookup builds
zero query variants, performs no fetch attempt and no sleep, and
immediately returns the fixed failure string — for every fetch oracle. -/
theorem C10_no_inputs_immediate_failure (fetch : String → Nat → FetchResult) :
    buildQueries none none none = [] ∧
    getBookDetails fetch none none none = ⟨failureMsg, [], []⟩ :=
  ⟨rfl, rfl⟩
